import Mathlib

/-!
A shallow embedding of the `conf` configuration-parsing library
(`cfg.go`, `options.go`, `value.go`) and proofs about it.

The embedding models:
* the type-directed conversion engine `parse` of `value.go`,
* the registry / orchestrator `Parser.Parse` of `cfg.go` together with the
  per-field policy `options` of `options.go`,
* the lookup composition `MakeParser` / `joinLookupFuncs` of `cfg.go`.

Go's runtime values that can sit in a destination are modelled by the
untyped value tree `Val`; Go's `reflect.Type` is modelled by `Ty`.
Machine integers are modelled as `Int`/`Nat` with explicit range checks
(`strconv` checks the bit width, it does not wrap).  Fallible operations
return an explicit outcome `POut`; a Go `panic` is the `POut.fault`
outcome, which propagates until the `recover` in `Parser.Parse` turns it
into the field's error.

Go standard-library routines used by the source (`strings.Split`,
`strings.Cut`, `strings.TrimSpace`, `strconv.Parse*`, `time.ParseDuration`)
are re-implemented over `List Char` below, faithful to their documented
grammar on the fragment the library exercises; deliberate simplifications
(no underscore digit separators beyond the basic rule, no hexadecimal
floats, exact rationals instead of IEEE rounding for fractional durations
and floats, ASCII-oriented quoting) are noted at each definition.
-/

/-! ## Characters and strings (models of Go `strings` helpers) -/

/-- Model of `unicode.IsSpace` restricted to Latin-1 (the white space
characters Go recognises there: `\t \n \v \f \r` space, NEL, NBSP).
Higher code-point space characters are not modelled. -/
def goIsSpace (c : Char) : Bool :=
  c.toNat = 9 || c.toNat = 10 || c.toNat = 11 || c.toNat = 12 ||
  c.toNat = 13 || c.toNat = 32 || c.toNat = 0x85 || c.toNat = 0xA0

/-- Model of `strings.TrimSpace`: drop leading and trailing white space. -/
def goTrimSpace (s : String) : String :=
  String.mk (((s.data.dropWhile goIsSpace).reverse.dropWhile goIsSpace).reverse)

/-- Split a character list at every occurrence of `sep`.
`splitChars sep cs` never returns `[]`. -/
def splitChars (sep : Char) : List Char → List (List Char)
  | [] => [[]]
  | c :: rest =>
    let r := splitChars sep rest
    if c = sep then [] :: r
    else
      match r with
      | [] => [[c]]
      | p :: ps => (c :: p) :: ps

/-- Model of `strings.Split s (String.mk [sep])` for a one-character
separator (the source only splits on `","`). -/
def goSplit (s : String) (sep : Char) : List String :=
  (splitChars sep s.data).map String.mk

/-- Model of `strings.Cut s sep` for the one-character separator `'='`
used by the source: split at the first occurrence of `sep`; `none` models
the `ok = false` return when `sep` does not occur. -/
def goCut (s : String) (sep : Char) : Option (String × String) :=
  match splitChars sep s.data with
  | [] => none
  | [_] => none
  | k :: rest => some (String.mk k, String.mk (List.intercalate [sep] rest))

/-- Byte-wise (hence also code-point-wise, since UTF-8 preserves
code-point order) comparison of character lists: `lexLe a b` models
`string(a) <= string(b)` in Go. -/
def lexLe : List Char → List Char → Bool
  | [], _ => true
  | _ :: _, [] => false
  | a :: as, b :: bs =>
    if a.toNat < b.toNat then true
    else if b.toNat < a.toNat then false
    else lexLe as bs

/-- The string order used by the error aggregation: Go's `<=` on strings. -/
def strLe (a b : String) : Prop := lexLe a.data b.data = true

instance : DecidableRel strLe := fun a b => by
  unfold strLe; infer_instance

/-- UTF-8 encoding of one code point, as byte values. -/
def utf8Enc (n : Nat) : List Nat :=
  if n < 0x80 then [n]
  else if n < 0x800 then [0xC0 + n / 0x40, 0x80 + n % 0x40]
  else if n < 0x10000 then
    [0xE0 + n / 0x1000, 0x80 + n / 0x40 % 0x40, 0x80 + n % 0x40]
  else
    [0xF0 + n / 0x40000, 0x80 + n / 0x1000 % 0x40, 0x80 + n / 0x40 % 0x40,
     0x80 + n % 0x40]

/-- The bytes of a string: models Go's `[]byte(text)` conversion. -/
def utf8Bytes (s : String) : List Nat :=
  s.data.foldr (fun c acc => utf8Enc c.toNat ++ acc) []

/-- Model of the `%q` quoting used in `strconv`/`time` error messages,
for the printable fragment: backslash, quote, newline and tab are
escaped, every other character is kept verbatim. -/
def goQuote (s : String) : String :=
  "\"" ++ String.mk (s.data.foldr (fun c acc =>
    if c = '\\' then '\\' :: '\\' :: acc
    else if c = '"' then '\\' :: '"' :: acc
    else if c = '\n' then '\\' :: 'n' :: acc
    else if c = '\t' then '\\' :: 't' :: acc
    else c :: acc) []) ++ "\""

/-! ## Models of `strconv` parsing -/

/-- Numeric value of a digit character, in any base up to 36. -/
def digitVal (c : Char) : Option Nat :=
  if '0' ≤ c ∧ c ≤ '9' then some (c.toNat - '0'.toNat)
  else if 'a' ≤ c ∧ c ≤ 'z' then some (c.toNat - 'a'.toNat + 10)
  else if 'A' ≤ c ∧ c ≤ 'Z' then some (c.toNat - 'A'.toNat + 10)
  else none

/-- Read a digit string in the given base.  `prevDigit` tracks whether an
underscore separator is currently permitted (Go's base-0 parsing allows
`_` between digits and directly after a base prefix); `sawDigit` requires
at least one digit overall. -/
def readDigits (base : Nat) : List Char → Bool → Bool → Nat → Option Nat
  | [], prevDigit, sawDigit, acc =>
    if prevDigit && sawDigit then some acc else none
  | c :: rest, prevDigit, sawDigit, acc =>
    if c = '_' then
      if prevDigit then readDigits base rest false sawDigit acc else none
    else
      match digitVal c with
      | some d => if d < base then readDigits base rest true true (acc * base + d) else none
      | none => none

/-- Split off a leading sign; returns `(negative, rest)`. -/
def splitSign : List Char → Bool × List Char
  | '+' :: rest => (false, rest)
  | '-' :: rest => (true, rest)
  | cs => (false, cs)

/-- Base detection and digit reading for `strconv.ParseInt`/`ParseUint`
with `base = 0` (the only base the source uses): `0x`/`0X` hexadecimal,
`0o`/`0O` octal, `0b`/`0B` binary, a leading `0` legacy octal, otherwise
decimal. -/
def readBasePrefixed : List Char → Option Nat
  | '0' :: x :: rest =>
    if x = 'x' ∨ x = 'X' then readDigits 16 rest true false 0
    else if x = 'o' ∨ x = 'O' then readDigits 8 rest true false 0
    else if x = 'b' ∨ x = 'B' then readDigits 2 rest true false 0
    else readDigits 8 (x :: rest) true true 0
  | cs => readDigits 10 cs false false 0

/-- Model of `strconv.ParseInt(s, 0, bits)`.  Returns the parsed integer
or the `*strconv.NumError` message. -/
def parseInt (s : String) (bits : Nat) : Except String Int :=
  let bad : Except String Int :=
    .error ("strconv.ParseInt: parsing " ++ goQuote s ++ ": invalid syntax")
  match s.data with
  | [] => bad
  | cs =>
    let (neg, rest) := splitSign cs
    if rest = [] then bad
    else
      match readBasePrefixed rest with
      | none => bad
      | some n =>
        let v : Int := if neg then -(n : Int) else (n : Int)
        if v < -(2 ^ (bits - 1) : Int) ∨ (2 ^ (bits - 1) : Int) - 1 < v then
          .error ("strconv.ParseInt: parsing " ++ goQuote s ++ ": value out of range")
        else .ok v

/-- Model of `strconv.ParseUint(s, 0, bits)` (no sign is accepted). -/
def parseUint (s : String) (bits : Nat) : Except String Nat :=
  let bad : Except String Nat :=
    .error ("strconv.ParseUint: parsing " ++ goQuote s ++ ": invalid syntax")
  match s.data with
  | [] => bad
  | cs =>
    match readBasePrefixed cs with
    | none => bad
    | some n =>
      if 2 ^ bits - 1 < n then
        .error ("strconv.ParseUint: parsing " ++ goQuote s ++ ": value out of range")
      else .ok n

/-- Model of `strconv.ParseBool`. -/
def parseBool (s : String) : Except String Bool :=
  if s = "1" ∨ s = "t" ∨ s = "T" ∨ s = "TRUE" ∨ s = "true" ∨ s = "True" then .ok true
  else if s = "0" ∨ s = "f" ∨ s = "F" ∨ s = "FALSE" ∨ s = "false" ∨ s = "False" then .ok false
  else .error ("strconv.ParseBool: parsing " ++ goQuote s ++ ": invalid syntax")

/-- A parsed floating-point literal, kept exact: `lit m e` denotes
`m * 10 ^ e`; `inf`/`nan` are the special values.  IEEE rounding to the
destination's bit width is not modelled (no claim depends on it). -/
inductive FloatLit where
  | lit (mantissa : Int) (exp10 : Int)
  | inf (neg : Bool)
  | nan
  deriving Repr, DecidableEq

/-- Lower-case a Latin letter. -/
def lowerChar (c : Char) : Char :=
  if 'A' ≤ c ∧ c ≤ 'Z' then Char.ofNat (c.toNat + 32) else c

/-- Read `digits` returning their value and count (no underscores). -/
def readDec : List Char → Nat → Nat → Option (Nat × Nat × List Char)
  | [], 0, _ => none
  | [], count, acc => some (acc, count, [])
  | c :: rest, count, acc =>
    match digitVal c with
    | some d => if d < 10 then readDec rest (count + 1) (acc * 10 + d) else
        if count = 0 then none else some (acc, count, c :: rest)
    | none => if count = 0 then none else some (acc, count, c :: rest)

/-- Model of `strconv.ParseFloat(s, bits)` for decimal and scientific
literals and the `inf`/`infinity`/`nan` specials.  Hexadecimal floats,
underscore separators and the out-of-range check are not modelled. -/
def parseFloat (s : String) : Except String FloatLit :=
  let bad : Except String FloatLit :=
    .error ("strconv.ParseFloat: parsing " ++ goQuote s ++ ": invalid syntax")
  let lower := String.mk (s.data.map lowerChar)
  if lower = "inf" ∨ lower = "+inf" ∨ lower = "infinity" ∨ lower = "+infinity" then
    .ok (.inf false)
  else if lower = "-inf" ∨ lower = "-infinity" then .ok (.inf true)
  else if lower = "nan" then .ok .nan
  else
    match s.data with
    | [] => bad
    | cs =>
      let (neg, rest) := splitSign cs
      -- integer part (may be empty if a fraction follows)
      let (ipVal, afterInt, sawIntDigit) :=
        match readDec rest 0 0 with
        | some (v, _, r) => (v, r, true)
        | none => (0, rest, false)
      -- fractional part (its digits may be empty when the integer part
      -- is present, as in Go's "1.")
      let (frVal, frLen, afterFrac, sawFracDigit) :=
        match afterInt with
        | '.' :: fr =>
          match readDec fr 0 0 with
          | some (v, n, r) => (v, n, r, true)
          | none => (0, 0, fr, false)
        | _ => (0, 0, afterInt, false)
      if ¬ sawIntDigit ∧ ¬ sawFracDigit then bad
      else
        let mant : Int :=
          (if neg then -1 else 1) * ((ipVal * 10 ^ frLen + frVal : Nat) : Int)
        match afterFrac with
        | [] => .ok (.lit mant (-(frLen : Int)))
        | e :: ex =>
          if e = 'e' ∨ e = 'E' then
            let (eneg, edigits) := splitSign ex
            match readDigits 10 edigits false false 0 with
            | some ev =>
              let ei : Int := if eneg then -(ev : Int) else (ev : Int)
              .ok (.lit mant (ei - (frLen : Int)))
            | none => bad
          else bad

/-! ## Model of `time.ParseDuration` -/

/-- Nanoseconds per unit; models the `unitMap` of `time`. -/
def durUnit : String → Option Nat
  | "ns" => some 1
  | "us" => some 1000
  | "µs" => some 1000
  | "μs" => some 1000
  | "ms" => some 1000000
  | "s" => some 1000000000
  | "m" => some 60000000000
  | "h" => some 3600000000000
  | _ => none

/-- Take the unit: the longest run of characters that are neither digits
nor `'.'`, as `time.ParseDuration` does. -/
def takeUnit : List Char → List Char × List Char
  | [] => ([], [])
  | c :: rest =>
    if ('0' ≤ c ∧ c ≤ '9') ∨ c = '.' then ([], c :: rest)
    else
      let (u, r) := takeUnit rest
      (c :: u, r)

/-- One `number unit` pass of `time.ParseDuration`, iterated over the
remaining text; accumulates nanoseconds.  The fractional part is scaled
with truncating natural division instead of the float arithmetic Go
uses (exact for the claims exercised here).  The first argument is fuel;
every successful pass consumes at least one character, so the caller's
`length + 1` fuel never runs out. -/
def parseDurChunks : Nat → List Char → Nat → Option Nat
  | 0, _, _ => none
  | _ + 1, [], acc => some acc
  | fuel + 1, cs, acc =>
    let (v, afterInt, sawInt) :=
      match readDec cs 0 0 with
      | some (n, _, r) => (n, r, true)
      | none => (0, cs, false)
    let (fv, fl, afterFrac, sawFrac) :=
      match afterInt with
      | '.' :: fr =>
        match readDec fr 0 0 with
        | some (n, l, r) => (n, l, r, true)
        | none => (0, 0, fr, false)
      | _ => (0, 0, afterInt, false)
    if ¬ sawInt ∧ ¬ sawFrac then none
    else
      let (u, rest) := takeUnit afterFrac
      match durUnit (String.mk u) with
      | none => none
      | some unit =>
        let add := v * unit + fv * unit / 10 ^ fl
        match rest with
        | [] => some (acc + add)
        | rest => parseDurChunks fuel rest (acc + add)

/-- Model of `time.ParseDuration`.  All of Go's duration error messages
are collapsed into the `"time: invalid duration"` form (the source never
inspects them). -/
def parseDuration (s : String) : Except String Int :=
  let bad : Except String Int :=
    .error ("time: invalid duration " ++ goQuote s)
  match s.data with
  | [] => bad
  | cs =>
    let (neg, rest) := splitSign cs
    if rest = ['0'] then .ok 0
    else if rest = [] then bad
    else
      match parseDurChunks (rest.length + 1) rest 0 with
      | none => bad
      | some n => .ok (if neg then -(n : Int) else (n : Int))

/-! ## The data model: runtime values and destination types -/

/-- A runtime value that can sit in a destination; models the portion of
Go's value universe reachable by `value.go`.  A Go `map` is modelled as
an association list in insertion order in which a later binding for a
key shadows an earlier one (see `mapGetStr`); a `nil` slice and map are
modelled as the empty list, and a `nil` pointer as `ptr none`. -/
inductive Val where
  | str (s : String)
  | int (n : Int)
  | uint (n : Nat)
  | bool (b : Bool)
  | float (f : FloatLit)
  | list (xs : List Val)
  | mapv (entries : List (Val × Val))
  | ptr (p : Option Val)
  deriving Repr

/-- Result of a caller-supplied `UnmarshalText`/`UnmarshalBinary`
implementation: it returns the new pointee on success, an error, or it
panics (`fault`).  In the error case the model leaves the pointee
unchanged (a real unmarshaler could also write partially; no claim
depends on that). -/
inductive DecRes where
  | ok (v : Val)
  | err (msg : String)
  | fault (msg : String)

/-- Outcome of a conversion step: success, a returned `error`, or a
`panic` unwinding (`fault`), which only the `recover` in
`Parser.Parse` stops. -/
inductive POut where
  | ok
  | err (msg : String)
  | fault (msg : String)
  deriving Repr, DecidableEq

/-- A destination's `reflect.Type`, as dispatched on by `parse` in
`value.go`:

* `signed bits isTimeDuration` covers the kinds `Int`..`Int64`
  (`t.Bits()` = `bits`); `isTimeDuration` models the
  `t.PkgPath() == "time" && t.Name() == "Duration"` test;
* `unsigned bits` covers `Uint`..`Uint64`, `float bits` covers
  `Float32/Float64`;
* `custom base textDec binDec` is a named type whose underlying type is
  `base` and whose pointer's method set provides the optional
  `encoding.TextUnmarshaler` / `encoding.BinaryUnmarshaler`
  implementations (`none` at both means a plain named type);
* `unsupported name` is any other kind; `name` is the `%s` rendering of
  the type in the `destination type not supported` error. -/
inductive Ty where
  | str
  | signed (bits : Nat) (isTimeDuration : Bool)
  | unsigned (bits : Nat)
  | boolean
  | float (bits : Nat)
  | slice (elem : Ty)
  | mapTy (key value : Ty)
  | ptr (elem : Ty)
  | custom (base : Ty) (textDec : Option (String → DecRes)) (binDec : Option (String → DecRes))
  | unsupported (name : String)

/-- The zero value `reflect.New(t).Elem()` starts from. -/
def zeroVal : Ty → Val
  | .str => .str ""
  | .signed _ _ => .int 0
  | .unsigned _ => .uint 0
  | .boolean => .bool false
  | .float _ => .float (.lit 0 0)
  | .slice _ => .list []
  | .mapTy _ _ => .mapv []
  | .ptr _ => .ptr none
  | .custom base _ _ => zeroVal base
  | .unsupported _ => .str ""  -- placeholder; `parse` never reads it

/-- The `v.Interface().(encoding.TextUnmarshaler)` assertion performed on
a pointer to `t`: only a named type with a text decoder satisfies it
(the built-in kinds and unnamed pointers have empty method sets). -/
def textDecOf : Ty → Option (String → DecRes)
  | .custom _ d _ => d
  | _ => none

/-- The `v.Interface().(encoding.BinaryUnmarshaler)` assertion performed
on a pointer to `t`. -/
def binDecOf : Ty → Option (String → DecRes)
  | .custom _ _ d => d
  | _ => none

/-- `t.Kind() == reflect.Uint8` — a named type has the kind of its
underlying type. -/
def isU8Kind : Ty → Bool
  | .unsigned 8 => true
  | .custom base _ _ => isU8Kind base
  | _ => false

/-- `target.SetMapIndex(k, v)`: insert or overwrite the binding of `k`.
In the association-list model the new binding is appended; it shadows
any earlier binding of the same key (`mapGetStr` reads the last one). -/
def mapSet (m : List (Val × Val)) (k v : Val) : List (Val × Val) :=
  m ++ [(k, v)]

/-- Read a map value at a string key: the last binding wins, matching
Go's overwrite semantics under the association-list model. -/
def mapGetStr (m : List (Val × Val)) (k : String) : Option Val :=
  m.foldl (fun acc p =>
    match p.1 with
    | .str s => if s = k then some p.2 else acc
    | _ => acc) none

/-- Lift an `Except` scalar-parser result into the `parse` convention:
write the converted value on success, keep `v` and return the error
otherwise. -/
def scalarStep (v : Val) (r : Except String Val) : Val × POut :=
  match r with
  | .ok w => (w, .ok)
  | .error m => (v, .err m)

/-- One iteration of the entry loop in the map branch of `parse`
(`value.go`), over the short-circuiting accumulator (`.inr` is a
returned error or panic): cut the entry at the first `'='` (no `'='`:
skip it silently), convert the key with `pk`, wrapping a failure as
`failed to parse key`, convert the value with `pv`, wrapping a failure
as `failed to parse value at key`, and insert the binding. -/
def mapStep (pk pv : String → Val × POut)
    (acc : List (Val × Val) ⊕ POut) (entry : String) : List (Val × Val) ⊕ POut :=
  match acc with
  | .inr o => .inr o
  | .inl m =>
    match goCut entry '=' with
    | none => .inl m
    | some (key, value) =>
      match pk key with
      | (_, .err e) => .inr (.err ("failed to parse key: " ++ key ++ ": " ++ e))
      | (_, .fault e) => .inr (.fault e)
      | (kv, .ok) =>
        match pv value with
        | (_, .err e) => .inr (.err ("failed to parse value at key: " ++ key ++ ": " ++ e))
        | (_, .fault e) => .inr (.fault e)
        | (vv, .ok) => .inl (mapSet m kv vv)

/-! ## The conversion engine: `parse` of `value.go` -/

/-- Shallow embedding of `func parse(v reflect.Value, text string,
topLevel bool) error` from `value.go`.

The Go function mutates the storage behind `v` and returns an `error`;
the embedding takes the current storage contents and returns the new
contents together with the outcome.  Branch by branch:

* `ptr elem` is one iteration of the `for t.Kind() == reflect.Pointer`
  loop: allocate a zero pointee if the pointer is nil (`v.Set(reflect.New
  (t.Elem()))` — this write survives a later failure), then try the
  `TextUnmarshaler` assertion, then `BinaryUnmarshaler`, each of which
  returns directly; otherwise descend into the pointee.
* the scalar kinds parse the full text and write only on success;
* `slice`/`mapTy` refuse when `topLevel` is false; the slice branch
  special-cases a byte element kind, writes an empty slice for blank
  text, otherwise splits on `','` and converts each item with
  `topLevel = false`, assigning the built slice only if every item
  converted (Go returns at the first failing item; mapping all items and
  selecting the first failure is observationally the same for this pure
  model);
* the map branch trims, returns with no write on blank text, splits on
  `','`, cuts each entry at the first `'='` (entries without `'='` are
  skipped), converts key and value with `topLevel = false` wrapping
  failures in the `failed to parse key/value at key` messages, and
  assigns the built map only at the end;
* a named type (`custom`) dispatches on its underlying kind;
* anything else is `destination type not supported`.

A byte-kind slice whose element type is not exactly `[]byte`
(e.g. `[]MyByte`) makes `reflect.Value.Set` panic in Go; that panic is
the `fault` below. -/
def parse : Ty → Val → String → Bool → Val × POut
  | .ptr elem, v, text, topLevel =>
    let pointee :=
      match v with
      | .ptr (some q) => q
      | _ => zeroVal elem
    (match textDecOf elem with
     | some dec =>
       match dec text with
       | .ok w => (.ptr (some w), .ok)
       | .err m => (.ptr (some pointee), .err m)
       | .fault m => (.ptr (some pointee), .fault m)
     | none =>
       match binDecOf elem with
       | some dec =>
         match dec text with
         | .ok w => (.ptr (some w), .ok)
         | .err m => (.ptr (some pointee), .err m)
         | .fault m => (.ptr (some pointee), .fault m)
       | none =>
         let r := parse elem pointee text topLevel
         (.ptr (some r.1), r.2))
  | .str, _, text, _ => (.str text, .ok)
  | .signed bits isDur, v, text, _ =>
    if isDur then
      match parseDuration text with
      | .ok d => (.int d, .ok)
      | .error m => (v, .err m)
    else scalarStep v ((parseInt text bits).map .int)
  | .unsigned bits, v, text, _ => scalarStep v ((parseUint text bits).map .uint)
  | .boolean, v, text, _ => scalarStep v ((parseBool text).map .bool)
  | .float _, v, text, _ => scalarStep v ((parseFloat text).map .float)
  | .slice elem, v, text, topLevel =>
    if topLevel = false then (v, .err "cannot support deep slices")
    else if isU8Kind elem then
      -- t.Elem().Kind() == reflect.Uint8: v.Set(reflect.ValueOf([]byte(text)));
      -- Set panics unless the element type is exactly byte
      match elem with
      | .unsigned 8 => (.list ((utf8Bytes text).map Val.uint), .ok)
      | _ => (v, .fault "reflect.Set: value of type []uint8 is not assignable")
    else if goTrimSpace text = "" then (.list [], .ok)
    else
      let rs := (goSplit text ',').map (fun sub => parse elem (zeroVal elem) sub false)
      match rs.find? (fun r => !(r.2 == .ok)) with
      | some bad => (v, bad.2)
      | none => (.list (rs.map Prod.fst), .ok)
  | .mapTy kt vt, v, text, topLevel =>
    if topLevel = false then (v, .err "cannot support deep maps")
    else
      let text := goTrimSpace text
      if text = "" then (v, .ok)
      else
        match (goSplit text ',').foldl
            (mapStep (fun key => parse kt (zeroVal kt) key false)
                     (fun value => parse vt (zeroVal vt) value false)) (.inl []) with
        | .inl m => (.mapv m, .ok)
        | .inr o => (v, o)
  | .custom base _ _, v, text, topLevel => parse base v text topLevel
  | .unsupported name, v, _, _ => (v, .err ("destination type not supported: " ++ name))

/-- `genericValue[T].Parse`: the engine is entered through the non-nil
pointer `v.dst` to the destination, so the pointer loop's unmarshaler
check applies to the destination type itself first. -/
def valueParse (t : Ty) (dst : Val) (text : String) : Val × POut :=
  match parse (.ptr t) (.ptr (some dst)) text true with
  | (.ptr (some d), o) => (d, o)
  | (_, o) => (dst, o)  -- unreachable: the ptr branch always returns a non-nil ptr

/-! ## Lookup sources, policy and the orchestrator (`cfg.go`, `options.go`) -/

/-- Result of calling a `LookupFunc`: the `(string, bool)` pair, or a
panic raised by a misbehaving source. -/
inductive LookupRes where
  | ret (text : String) (ok : Bool)
  | fault (msg : String)
  deriving Repr, DecidableEq

/-- A lookup source `func(string) (string, bool)` that may panic. -/
def Lk : Type := String → LookupRes

/-- The per-field policy `options` struct of `options.go`. -/
structure Opts where
  required : Bool := false
  nonEmpty : Bool := false
  skipEmpty : Bool := false
  fallback : Option Val := none
  deriving Repr

/-- `conf.Required`. -/
def Required (value : Bool) : Opts → Opts := fun o => { o with required := value }

/-- `conf.NonEmpty`. -/
def NonEmpty (value : Bool) : Opts → Opts := fun o => { o with nonEmpty := value }

/-- `conf.SkipEmpty`. -/
def SkipEmpty (value : Bool) : Opts → Opts := fun o => { o with skipEmpty := value }

/-- `conf.Default`: a set fallback (`fallback != nil`). -/
def Default (value : Val) : Opts → Opts := fun o => { o with fallback := some value }

/-- `conf.Var`'s option application: fold the option functions over the
zero-valued `options`. -/
def applyOpts (opts : List (Opts → Opts)) : Opts :=
  opts.foldl (fun acc f => f acc) {}

/-- The body of the per-field closure in `Parser.Parse` (`cfg.go`),
before the deferred `recover`: look the name up, apply the
presence/empty policy, fall back to the conversion engine.  Returns the
new destination contents and the outcome; a `fault` models a panic
escaping the closure body. -/
def fieldStep (lookup : Lk) (name : String) (t : Ty) (dst : Val) (o : Opts) : Val × POut :=
  match lookup name with
  | .fault m => (dst, .fault m)
  | .ret text ok =>
    if ok ∧ text = "" ∧ o.nonEmpty then
      (dst, .err "field is declared but empty: cannot be empty")
    else if ok ∧ text = "" ∧ o.skipEmpty then (dst, .ok)
    else if ok = false then
      if o.required then (dst, .err "field is required")
      else
        match o.fallback with
        | some f => (f, .ok)  -- field.value.Set(field.opts.fallback)
        | none => (dst, .ok)
    else valueParse t dst text  -- field.value.Parse(text)

/-- One field of `Parser.Parse`'s loop, including the deferred
`recover`: a panic anywhere in the closure becomes the field's error
(`fmt.Errorf("%v", recovered)` keeps the panic message). -/
def processField (lookup : Lk) (name : String) (t : Ty) (dst : Val) (o : Opts) :
    Val × Option String :=
  match fieldStep lookup name t dst o with
  | (v, .ok) => (v, none)
  | (v, .err m) => (v, some m)
  | (v, .fault m) => (v, some m)

/-- One registered field: its name, destination type, current
destination contents and policy.  `Parser.fields` is a Go map with
unique names; the model uses a list, whose order the aggregation
theorems show to be irrelevant. -/
structure Entry where
  name : String
  ty : Ty
  dst : Val
  opts : Opts

/-- `fmt.Errorf("%s: %w", name, err)`: the per-field line of the
aggregated report. -/
def errLine (name msg : String) : String := name ++ ": " ++ msg

/-- The loop of `Parser.Parse`: process every field, collecting the new
destination contents and, for each failing field, the
`fmt.Errorf("%s: %w", name, err)` message. -/
def runFields (lookup : Lk) : List Entry → List Entry × List String
  | [] => ([], [])
  | e :: rest =>
    let r := processField lookup e.name e.ty e.dst e.opts
    let rest' := runFields lookup rest
    ({ e with dst := r.1 } :: rest'.1,
     match r.2 with
     | none => rest'.2
     | some m => errLine e.name m :: rest'.2)

/-- Modelled from the spec: `xerr.MultiErrOrderedFrom` (an external
dependency, not part of this repository's source) joins the collected
errors into one deterministic report: no error when the list is empty,
otherwise the messages sorted lexically.  The spec gives the
`"failed to parse variable(s):\n  - <name>: <message>"` multi-line
format; the repository's own test `TestInvalidDestination` pins the
single-error format to the inline `"<label>: <message>"` form, which
this model follows. -/
def multiErrOrderedFrom (label : String) (errs : List String) : Option String :=
  match List.insertionSort strLe errs with
  | [] => none
  | [e] => some (label ++ ": " ++ e)
  | es => some (label ++ ":" ++ String.join (es.map (fun e => "\n  - " ++ e)))

/-- `Parser.Parse`: run every field, then aggregate the failures. -/
def parseRegistry (lookup : Lk) (fields : List Entry) : List Entry × Option String :=
  let r := runFields lookup fields
  (r.1, multiErrOrderedFrom "failed to parse variable(s)" r.2)

/-- The loop of `joinLookupFuncs`: try the sources in order carrying the
named return values `(value, ok)` (initially `("", false)`); the first
`ok = true` result returns; a panic propagates; with no hit the last
source's `(value, false)` is returned. -/
def joinGo : List Lk → String → LookupRes → LookupRes
  | [], _, last => last
  | fn :: rest, key, _ =>
    match fn key with
    | .fault m => .fault m
    | .ret v true => .ret v true
    | .ret v false => joinGo rest key (.ret v false)

/-- `joinLookupFuncs` (`cfg.go`). -/
def joinLookupFuncs (fns : List Lk) : Lk := fun key => joinGo fns key (.ret "" false)

/-- `MakeParser` (`cfg.go`): drop nil sources (`none`), fall back to
`os.LookupEnv` (the `env` parameter, an external collaborator) when none
remain, otherwise compose with `joinLookupFuncs`.  Returns the parser's
resolved lookup. -/
def makeParserLookup (env : Lk) (funcs : List (Option Lk)) : Lk :=
  let lookupFuncs := funcs.filterMap id
  if lookupFuncs.isEmpty then env else joinLookupFuncs lookupFuncs

/-! ## Order lemmas for the aggregation -/

theorem lexLe_total : ∀ a b : List Char, lexLe a b = true ∨ lexLe b a = true
  | [], _ => .inl rfl
  | _ :: _, [] => .inr rfl
  | a :: as, b :: bs => by
    simp only [lexLe]
    rcases Nat.lt_trichotomy a.toNat b.toNat with h | h | h
    · simp [h]
    · simp only [h, Nat.lt_irrefl, if_neg, if_pos, ite_false]
      exact lexLe_total as bs
    · simp [h, Nat.lt_asymm h]

theorem lexLe_trans : ∀ a b c : List Char,
    lexLe a b = true → lexLe b c = true → lexLe a c = true
  | [], _, _, _, _ => rfl
  | a :: as, [], c, h, _ => by simp [lexLe] at h
  | a :: as, b :: bs, [], _, h => by simp [lexLe] at h
  | a :: as, b :: bs, c :: cs, h1, h2 => by
    simp only [lexLe] at h1 h2 ⊢
    by_cases hab : a.toNat < b.toNat <;> by_cases hba : b.toNat < a.toNat <;>
      by_cases hbc : b.toNat < c.toNat <;> by_cases hcb : c.toNat < b.toNat <;>
      simp only [hab, hba, hbc, hcb, if_true, if_false, ite_true, ite_false] at h1 h2 <;>
      first
        | omega
        | exact (Bool.false_ne_true h1).elim
        | exact (Bool.false_ne_true h2).elim
        | (have hac : a.toNat < c.toNat := by omega
           simp [hac])
        | (have hac : ¬ a.toNat < c.toNat := by omega
           have hca : ¬ c.toNat < a.toNat := by omega
           simp only [hac, hca, if_false, ite_false]
           exact lexLe_trans as bs cs h1 h2)

theorem char_toNat_inj {a b : Char} (h : a.toNat = b.toNat) : a = b := by
  cases a; cases b
  simp only [Char.toNat] at h
  congr 1
  exact UInt32.ext h

theorem lexLe_antisymm : ∀ a b : List Char,
    lexLe a b = true → lexLe b a = true → a = b
  | [], [], _, _ => rfl
  | [], _ :: _, _, h => by simp [lexLe] at h
  | _ :: _, [], h, _ => by simp [lexLe] at h
  | a :: as, b :: bs, h1, h2 => by
    simp only [lexLe] at h1 h2
    rcases Nat.lt_trichotomy a.toNat b.toNat with hab | hab | hab
    · simp [hab, Nat.lt_asymm hab] at h2
    · have : a = b := char_toNat_inj hab
      subst this
      simp only [Nat.lt_irrefl, ite_false] at h1 h2
      rw [lexLe_antisymm as bs h1 h2]
    · simp [hab, Nat.lt_asymm hab] at h1

instance : IsTotal String strLe := ⟨fun a b => lexLe_total a.data b.data⟩

instance : IsTrans String strLe := ⟨fun a b c => lexLe_trans a.data b.data c.data⟩

instance : IsAntisymm String strLe :=
  ⟨fun a b h1 h2 => String.ext (lexLe_antisymm a.data b.data h1 h2)⟩

/-- Appending cannot reorder two strings that differ before either
ends: a strictly smaller, non-prefix character list stays strictly
smaller whatever is appended.  This is what makes the report lines
`<name>: <message>` sort in field-name order for prefix-free names. -/
theorem lexLe_append_of_lt_not_prefix : ∀ a b : List Char,
    lexLe a b = true → lexLe b a = false → ¬ (a <+: b) →
    ∀ u v : List Char, lexLe (a ++ u) (b ++ v) = true ∧ lexLe (b ++ v) (a ++ u) = false
  | [], b, _, _, hp, _, _ => absurd (List.nil_prefix) hp
  | _ :: _, [], h, _, _, _, _ => by simp [lexLe] at h
  | a :: as, b :: bs, h1, h2, hp, u, v => by
    simp only [lexLe, List.cons_append] at h1 h2 ⊢
    rcases Nat.lt_trichotomy a.toNat b.toNat with hab | hab | hab
    · simp [hab, Nat.lt_asymm hab]
    · have : a = b := char_toNat_inj hab
      subst this
      simp only [Nat.lt_irrefl, ite_false] at h1 h2 ⊢
      have hp' : ¬ (as <+: bs) := fun hc => hp (List.prefix_cons_inj a |>.mpr hc)
      exact lexLe_append_of_lt_not_prefix as bs h1 h2 hp' u v
    · simp [hab, Nat.lt_asymm hab] at h1

/-! ## Frame lemmas: what `parse` writes on failure -/

/-- `t` involves no pointer indirection at its head: the destination is
written only through `v.Set*` after a fully successful parse. -/
def headPtrFree : Ty → Bool
  | .ptr _ => false
  | .custom base _ _ => headPtrFree base
  | _ => true

/-- Unless a parse succeeds outright, the engine leaves the storage it
was pointed at untouched — provided no pointer indirection happens at
the head of the type (indirection allocates through the destination
before parsing). -/
theorem parse_frame_or : ∀ (t : Ty) (v : Val) (text : String) (top : Bool),
    headPtrFree t = true → (parse t v text top).2 = .ok ∨ (parse t v text top).1 = v := by
  intro t
  induction t with
  | ptr elem ih => intro v text top hp; simp [headPtrFree] at hp
  | custom base td bd ih =>
    intro v text top hp
    simp only [headPtrFree] at hp
    simp only [parse]
    exact ih v text top hp
  | str => intro v text top _; left; rfl
  | signed bits isDur =>
    intro v text top _
    simp only [parse, scalarStep]
    repeat' split
    all_goals first | (left; rfl) | (right; rfl)
  | unsigned bits =>
    intro v text top _
    simp only [parse, scalarStep]
    repeat' split
    all_goals first | (left; rfl) | (right; rfl)
  | boolean =>
    intro v text top _
    simp only [parse, scalarStep]
    repeat' split
    all_goals first | (left; rfl) | (right; rfl)
  | float bits =>
    intro v text top _
    simp only [parse, scalarStep]
    repeat' split
    all_goals first | (left; rfl) | (right; rfl)
  | slice elem ih =>
    intro v text top _
    simp only [parse]
    repeat' split
    all_goals first | (left; rfl) | (right; rfl)
  | mapTy kt vt ih1 ih2 =>
    intro v text top _
    simp only [parse]
    repeat' split
    all_goals first | (left; rfl) | (right; rfl)
  | unsupported name => intro v text top _; right; rfl

/-- The failure form of `parse_frame_or`. -/
theorem parse_frame (t : Ty) (v : Val) (text : String) (top : Bool)
    (hp : headPtrFree t = true) (he : (parse t v text top).2 ≠ .ok) :
    (parse t v text top).1 = v :=
  (parse_frame_or t v text top hp).resolve_left he

/-- `parse_frame_or` carried through the entry point `valueParse`: this
covers the custom-decoder error case as well, because at the top the
pointee already holds the destination. -/
theorem valueParse_frame_or (t : Ty) (dst : Val) (text : String)
    (hp : headPtrFree t = true) :
    (valueParse t dst text).2 = .ok ∨ (valueParse t dst text).1 = dst := by
  unfold valueParse
  simp only [parse]
  cases htd : textDecOf t with
  | some dec => cases hdt : dec text <;> simp [hdt]
  | none =>
    cases hbd : binDecOf t with
    | some dec => cases hdt : dec text <;> simp [hdt]
    | none =>
      rcases parse_frame_or t dst text true hp with h | h
      · left; simpa using h
      · rcases hr : parse t dst text true with ⟨v1, o1⟩
        rw [hr] at h
        simp only [hr]
        right
        simpa using h

/-! ## The pass as a whole: independence and aggregation -/

/-- The per-entry update performed by the loop of `Parser.Parse`. -/
def updEntry (lk : Lk) (e : Entry) : Entry :=
  { e with dst := (processField lk e.name e.ty e.dst e.opts).1 }

/-- The report lines produced by one pass, in iteration order. -/
def errLines (lk : Lk) (fields : List Entry) : List String :=
  fields.filterMap (fun e => (processField lk e.name e.ty e.dst e.opts).2.map (errLine e.name))

/-- The loop acts on every field independently: the final destinations
are a `map` over the entries and the collected messages a `filterMap`,
so no field's outcome can affect another field's processing. -/
theorem runFields_eq (lk : Lk) : ∀ fields : List Entry,
    runFields lk fields = (fields.map (updEntry lk), errLines lk fields)
  | [] => rfl
  | e :: rest => by
    have ih := runFields_eq lk rest
    simp only [runFields, ih, errLines, List.filterMap_cons, List.map_cons]
    rcases h : processField lk e.name e.ty e.dst e.opts with ⟨v1, o1⟩
    cases o1 <;> simp [updEntry, errLines, h]

theorem multiErr_none_iff (label : String) (errs : List String) :
    multiErrOrderedFrom label errs = none ↔ errs = [] := by
  have hperm := List.perm_insertionSort strLe errs
  unfold multiErrOrderedFrom
  split
  next heq =>
    rw [heq] at hperm
    simp [hperm.symm.eq_nil]
  next e heq =>
    rw [heq] at hperm
    constructor
    · intro h; cases h
    · intro h; rw [h] at hperm; cases hperm.eq_nil
  next es h1 h2 =>
    constructor
    · intro h; cases h
    · intro h
      subst h
      exact (h1 rfl).elim

/-! ## Claim C1 — no mutation of the destination on a field's own failure -/

/-- C1, counterexample: for the pointer-typed destination `*int64`
holding `nil`, converting the unparsable text `"abc"` fails and yet the
destination has been mutated — the indirection step allocated a fresh
zero pointee and wrote the pointer into the destination before the
scalar parse failed.  This refutes the claim's "holds for every
destination type, including pointer-typed destinations". -/
theorem c1_counterexample :
    valueParse (.ptr (.signed 64 false)) (.ptr none) "abc"
      = (.ptr (some (.int 0)), .err "strconv.ParseInt: parsing \"abc\": invalid syntax")
    ∧ Val.ptr (some (.int 0)) ≠ Val.ptr none :=
  ⟨rfl, by simp⟩

/-- C1 (amended): on a field's own conversion failure the destination
is not mutated — the engine writes scalars only after fully parsing and
discards partially-built composites — for every destination type whose
head involves no pointer indirection; a pointer-typed destination may
additionally have had a fresh zero pointee allocated and assigned by the
indirection step before the failure. -/
theorem c1_frame_amended (t : Ty) (dst : Val) (text : String)
    (hp : headPtrFree t = true) (he : (valueParse t dst text).2 ≠ .ok) :
    (valueParse t dst text).1 = dst :=
  (valueParse_frame_or t dst text hp).resolve_left he

/-- C1 witness: a failing `int64` conversion leaves the destination's
previous value `5` in place. -/
theorem c1_frame_amended_witness :
    headPtrFree (.signed 64 false) = true
    ∧ (valueParse (.signed 64 false) (.int 5) "abc").2 ≠ .ok
    ∧ (valueParse (.signed 64 false) (.int 5) "abc").1 = .int 5 :=
  ⟨rfl, by decide, c1_frame_amended (.signed 64 false) (.int 5) "abc" rfl (by decide)⟩

/-! ## Claim C2 — top-level map conversion of blank text -/

/-- C2, counterexample: converting blank text into a map-typed
destination that already holds the binding `a ↦ 1` succeeds with no
error but leaves that binding in place: the map branch returns before
writing anything, so the destination does not receive an empty map. -/
theorem c2_counterexample :
    valueParse (.mapTy .str (.signed 64 false)) (.mapv [(.str "a", .int 1)]) ""
      = (.mapv [(.str "a", .int 1)], .ok)
    ∧ Val.mapv [(.str "a", .int 1)] ≠ .mapv [] :=
  ⟨rfl, by simp⟩

/-- C2 (amended): for every top-level map-typed destination, converting
a text whose trimmed form is empty succeeds with no error and leaves the
destination untouched (so a zero-valued destination remains an empty
map, but an existing value is not replaced). -/
theorem c2_blank_map_amended (kt vt : Ty) (dst : Val) (text : String)
    (h : goTrimSpace text = "") :
    valueParse (.mapTy kt vt) dst text = (dst, .ok) := by
  unfold valueParse
  simp [parse, textDecOf, binDecOf, h]

/-- C2 witness: blank text `" "` into an empty string-to-string map. -/
theorem c2_blank_map_amended_witness :
    goTrimSpace " " = ""
    ∧ valueParse (.mapTy .str .str) (.mapv [(.str "z", .str "w")]) " "
        = (.mapv [(.str "z", .str "w")], .ok) :=
  ⟨rfl, c2_blank_map_amended .str .str (.mapv [(.str "z", .str "w")]) " " rfl⟩

/-! ## Claim C3 — the presence/empty policy of `Parser.Parse` -/

/-- C3: the policy dispatch of `Parser.Parse` (`cfg.go`): on a found but
empty value, `nonEmpty` fails with the empty-value error, else
`skipEmpty` skips successfully leaving the destination unchanged, else
the empty text goes to the conversion engine; on a not-found name,
`required` fails with the missing-required error, else a set fallback is
assigned, else the destination is untouched and the field succeeds. -/
theorem c3_policy (lk : Lk) (name : String) (t : Ty) (dst : Val) (o : Opts) :
    (lk name = .ret "" true → o.nonEmpty = true →
      processField lk name t dst o = (dst, some "field is declared but empty: cannot be empty"))
    ∧ (lk name = .ret "" true → o.nonEmpty = false → o.skipEmpty = true →
      processField lk name t dst o = (dst, none))
    ∧ (lk name = .ret "" true → o.nonEmpty = false → o.skipEmpty = false →
      fieldStep lk name t dst o = valueParse t dst "")
    ∧ (∀ text, lk name = .ret text false → o.required = true →
      processField lk name t dst o = (dst, some "field is required"))
    ∧ (∀ text f, lk name = .ret text false → o.required = false → o.fallback = some f →
      processField lk name t dst o = (f, none))
    ∧ (∀ text, lk name = .ret text false → o.required = false → o.fallback = none →
      processField lk name t dst o = (dst, none)) := by
  refine ⟨?_, ?_, ?_, ?_, ?_, ?_⟩
  · intro h hne
    simp [processField, fieldStep, h, hne]
  · intro h hne hse
    simp [processField, fieldStep, h, hne, hse]
  · intro h hne hse
    simp [fieldStep, h, hne, hse]
  · intro text h hreq
    simp [processField, fieldStep, h, hreq]
  · intro text f h hreq hfb
    simp [processField, fieldStep, h, hreq, hfb]
  · intro text h hreq hfb
    simp [processField, fieldStep, h, hreq, hfb]

/-- C3 witness: each policy branch exercised at a concrete instance. -/
theorem c3_policy_witness :
    (processField (fun _ => .ret "" true) "n" .str (.str "keep") { nonEmpty := true }
      = (.str "keep", some "field is declared but empty: cannot be empty"))
    ∧ (processField (fun _ => .ret "" true) "n" (.signed 64 false) (.int 7) { skipEmpty := true }
      = (.int 7, none))
    ∧ (fieldStep (fun _ => .ret "" true) "n" .str (.str "old") {}
      = valueParse .str (.str "old") "")
    ∧ (processField (fun _ => .ret "x" false) "n" .str (.str "keep") { required := true }
      = (.str "keep", some "field is required"))
    ∧ (processField (fun _ => .ret "x" false) "n" .str (.str "keep") { fallback := some (.str "fb") }
      = (.str "fb", none))
    ∧ (processField (fun _ => .ret "x" false) "n" .str (.str "keep") {}
      = (.str "keep", none)) :=
  ⟨(c3_policy (fun _ => .ret "" true) "n" .str (.str "keep") { nonEmpty := true }).1 rfl rfl,
   (c3_policy (fun _ => .ret "" true) "n" (.signed 64 false) (.int 7) { skipEmpty := true }).2.1 rfl rfl rfl,
   (c3_policy (fun _ => .ret "" true) "n" .str (.str "old") {}).2.2.1 rfl rfl rfl,
   (c3_policy (fun _ => .ret "x" false) "n" .str (.str "keep") { required := true }).2.2.2.1 "x" rfl rfl,
   (c3_policy (fun _ => .ret "x" false) "n" .str (.str "keep") { fallback := some (.str "fb") }).2.2.2.2.1 "x" (.str "fb") rfl rfl rfl,
   (c3_policy (fun _ => .ret "x" false) "n" .str (.str "keep") {}).2.2.2.2.2 "x" rfl rfl rfl⟩

/-! ## Claim C4 — success/failure and the aggregated, sorted report -/

theorem lexLe_refl : ∀ a : List Char, lexLe a a = true
  | [] => rfl
  | c :: cs => by simp [lexLe, lexLe_refl cs]

theorem parseRegistry_snd (lk : Lk) (fields : List Entry) :
    (parseRegistry lk fields).2
      = multiErrOrderedFrom "failed to parse variable(s)" (errLines lk fields) := by
  simp [parseRegistry, runFields_eq]

theorem multiErr_congr_perm (label : String) {l1 l2 : List String} (h : l1.Perm l2) :
    multiErrOrderedFrom label l1 = multiErrOrderedFrom label l2 := by
  have hs : List.insertionSort strLe l1 = List.insertionSort strLe l2 :=
    List.eq_of_perm_of_sorted
      (((List.perm_insertionSort strLe l1).trans h).trans (List.perm_insertionSort strLe l2).symm)
      (List.sorted_insertionSort strLe l1) (List.sorted_insertionSort strLe l2)
  unfold multiErrOrderedFrom
  rw [hs]

/-- C4, counterexample: with exactly one failing field the aggregated
message is the inline `"failed to parse variable(s): <name>: <message>"`
(as the repository's test `TestInvalidDestination` pins down), not the
claimed `"\n  - "`-bulleted form; moreover with the two failing fields
`"a"` and `"a!"` the report lists `"a!"` first although `"a"` is
lexically smaller, because the aggregation sorts whole
`<name>: <message>` lines, not bare field names. -/
theorem c4_counterexample :
    ((parseRegistry (fun _ => .ret "" false) [⟨"a", .str, .str "", { required := true }⟩]).2
      = some "failed to parse variable(s): a: field is required")
    ∧ ("failed to parse variable(s): a: field is required"
      ≠ "failed to parse variable(s):\n  - a: field is required")
    ∧ ((parseRegistry (fun _ => .ret "" false)
        [⟨"a", .str, .str "", { required := true }⟩,
         ⟨"a!", .str, .str "", { required := true }⟩]).2
      = some "failed to parse variable(s):\n  - a!: field is required\n  - a: field is required")
    ∧ strLe "a" "a!" ∧ "a" ≠ "a!" :=
  ⟨rfl, by decide, rfl, by decide, by decide⟩

/-- C4 (amended): `Parser.Parse` succeeds exactly when zero fields
failed, however many were registered; otherwise it returns one
aggregated error, independent of registration order, whose
`<name>: <message>` lines are sorted lexically as whole lines — which
is field-name order whenever no failing field's name is a prefix of
another's (last conjunct) — rendered one `"\n  - "` line per failed
field when at least two fields failed, and inline as
`"failed to parse variable(s): <name>: <message>"` when exactly one
did. -/
theorem c4_aggregation (lk : Lk) (fields : List Entry) :
    ((parseRegistry lk fields).2 = none ↔
      ∀ e ∈ fields, (processField lk e.name e.ty e.dst e.opts).2 = none)
    ∧ (∀ fields', fields.Perm fields' →
        (parseRegistry lk fields).2 = (parseRegistry lk fields').2)
    ∧ (List.insertionSort strLe (errLines lk fields)).Sorted strLe
    ∧ (List.insertionSort strLe (errLines lk fields)).Perm (errLines lk fields)
    ∧ (∀ l, List.insertionSort strLe (errLines lk fields) = l → 2 ≤ l.length →
        (parseRegistry lk fields).2
          = some ("failed to parse variable(s):"
              ++ String.join (l.map (fun e => "\n  - " ++ e))))
    ∧ (∀ e, errLines lk fields = [e] →
        (parseRegistry lk fields).2 = some ("failed to parse variable(s): " ++ e))
    ∧ (∀ n1 m1 n2 m2 : String, strLe n1 n2 → n1 ≠ n2 → ¬ (n1.data <+: n2.data) →
        strLe (errLine n1 m1) (errLine n2 m2) ∧ errLine n1 m1 ≠ errLine n2 m2) := by
  refine ⟨?_, ?_, List.sorted_insertionSort strLe _, List.perm_insertionSort strLe _, ?_, ?_, ?_⟩
  · rw [parseRegistry_snd, multiErr_none_iff]
    unfold errLines
    rw [List.filterMap_eq_nil_iff]
    constructor
    · intro h e he
      have := h _ he
      simpa using this
    · intro h e he
      simp [h e he]
  · intro fields' hperm
    rw [parseRegistry_snd, parseRegistry_snd]
    exact multiErr_congr_perm _ (hperm.filterMap _)
  · intro l hl hlen
    rw [parseRegistry_snd]
    unfold multiErrOrderedFrom
    rw [hl]
    rcases l with _ | ⟨a, _ | ⟨b, rest⟩⟩
    · simp at hlen
    · simp at hlen
    · rfl
  · intro e he
    rw [parseRegistry_snd]
    unfold multiErrOrderedFrom
    rw [he]
    rfl
  · intro n1 m1 n2 m2 hle hne hpre
    have hlt : lexLe n2.data n1.data = false := by
      by_contra hc
      have : lexLe n2.data n1.data = true := by
        cases h2 : lexLe n2.data n1.data
        · exact absurd h2 hc
        · rfl
      exact hne (String.ext (lexLe_antisymm n1.data n2.data hle this))
    have key := lexLe_append_of_lt_not_prefix n1.data n2.data hle hlt hpre
      (": ".data ++ m1.data) (": ".data ++ m2.data)
    have hdata : ∀ n m : String, (errLine n m).data = n.data ++ (": ".data ++ m.data) := by
      intro n m
      simp [errLine, String.data_append]
    constructor
    · show lexLe (errLine n1 m1).data (errLine n2 m2).data = true
      rw [hdata, hdata]
      exact key.1
    · intro heq
      have : lexLe (errLine n2 m2).data (errLine n1 m1).data = true := by
        rw [heq]; exact lexLe_refl _
      rw [hdata, hdata] at this
      rw [key.2] at this
      cases this

/-- C4 witness: registering `"b"` (failing) then `"a"` (failing) reports
`"a"` first; a registry whose only field succeeds yields no error; and
strictly ordered prefix-free names produce strictly ordered report
lines. -/
theorem c4_aggregation_witness :
    ((parseRegistry (fun _ => .ret "" false)
        [⟨"b", .str, .str "", { required := true }⟩,
         ⟨"a", .str, .str "", { required := true }⟩]).2
      = some "failed to parse variable(s):\n  - a: field is required\n  - b: field is required")
    ∧ ((parseRegistry (fun _ => .ret "v" true) [⟨"x", .str, .str "", {}⟩]).2 = none)
    ∧ (strLe (errLine "a" "m1") (errLine "b" "m2")
        ∧ errLine "a" "m1" ≠ errLine "b" "m2") :=
  ⟨(c4_aggregation (fun _ => .ret "" false)
      [⟨"b", .str, .str "", { required := true }⟩,
       ⟨"a", .str, .str "", { required := true }⟩]).2.2.2.2.1
    ["a: field is required", "b: field is required"] rfl (by decide),
   (c4_aggregation (fun _ => .ret "v" true) [⟨"x", .str, .str "", {}⟩]).1.mpr
    (by intro e he; simp only [List.mem_singleton] at he; subst he; rfl),
   (c4_aggregation (fun _ => .ret "" false) []).2.2.2.2.2.2 "a" "m1" "b" "m2"
    (by decide) (by decide) (by rintro ⟨t, ht⟩; simp at ht)⟩

/-! ## Claim C5 — per-field isolation of runtime faults -/

/-- C5: a panic raised while processing one field (here: by its lookup
source; a panicking converter propagates into `fieldStep`'s outcome the
same way) is caught by the deferred `recover` and becomes that field's
own error with the panic message, the destination left unchanged; and
the pass processes every registered field independently — the final
destinations are a `map` and the collected failures a `filterMap` over
the entries, so one field's fault never aborts the others. -/
theorem c5_isolation (lk : Lk) :
    (∀ fields : List Entry,
      runFields lk fields = (fields.map (updEntry lk), errLines lk fields))
    ∧ (∀ (name : String) (t : Ty) (dst : Val) (o : Opts) (m : String),
        lk name = .fault m → processField lk name t dst o = (dst, some m)) := by
  refine ⟨runFields_eq lk, ?_⟩
  intro name t dst o m h
  simp [processField, fieldStep, h]

/-- C5 witness: the spec's scenario — the source panics for `"bad"`,
returns normally for `"GOOD"`; only `"bad"` is reported and `"GOOD"`'s
destination is populated. -/
theorem c5_isolation_witness :
    ((fun n => if n = "bad" then LookupRes.fault "lookup key not capitalized"
               else .ret "value" true) "bad" = .fault "lookup key not capitalized")
    ∧ (processField
        (fun n => if n = "bad" then .fault "lookup key not capitalized" else .ret "value" true)
        "bad" .str (.str "") {} = (.str "", some "lookup key not capitalized"))
    ∧ ((parseRegistry
        (fun n => if n = "bad" then .fault "lookup key not capitalized" else .ret "value" true)
        [⟨"GOOD", .str, .str "", {}⟩, ⟨"bad", .str, .str "", {}⟩])
      = ([⟨"GOOD", .str, .str "value", {}⟩, ⟨"bad", .str, .str "", {}⟩],
         some "failed to parse variable(s): bad: lookup key not capitalized")) :=
  ⟨rfl,
   (c5_isolation
      (fun n => if n = "bad" then .fault "lookup key not capitalized" else .ret "value" true)).2
     "bad" .str (.str "") {} "lookup key not capitalized" rfl,
   rfl⟩

/-! ## Claim C6 — top-level sequence conversion -/

/-- C6: for top-level sequence destinations — a byte element type takes
the raw text bytes with no splitting; blank trimmed text yields the
empty sequence, never an error; `"a,b,c"` into a string sequence gives
`["a","b","c"]`; otherwise the text splits on `','`, every substring is
converted as a nested value in split order, and the first failing item
fails the whole field with the destination unchanged (the partial
sequence is discarded). -/
theorem c6_sequence (elem : Ty) (dst : Val) (text : String) :
    (valueParse (.slice (.unsigned 8)) dst text
      = (.list ((utf8Bytes text).map Val.uint), .ok))
    ∧ (isU8Kind elem = false → goTrimSpace text = "" →
        valueParse (.slice elem) dst text = (.list [], .ok))
    ∧ (valueParse (.slice .str) dst "a,b,c" = (.list [.str "a", .str "b", .str "c"], .ok))
    ∧ (isU8Kind elem = false → goTrimSpace text ≠ "" →
        ((∀ r ∈ (goSplit text ',').map (fun sub => parse elem (zeroVal elem) sub false),
            r.2 = .ok) →
          valueParse (.slice elem) dst text
            = (.list (((goSplit text ',').map
                (fun sub => parse elem (zeroVal elem) sub false)).map Prod.fst), .ok))
        ∧ (∀ bad,
            ((goSplit text ',').map (fun sub => parse elem (zeroVal elem) sub false)).find?
                (fun r => !(r.2 == .ok)) = some bad →
          valueParse (.slice elem) dst text = (dst, bad.2))) := by
  refine ⟨rfl, ?_, rfl, ?_⟩
  · intro h8 htrim
    simp [valueParse, parse, textDecOf, binDecOf, h8, htrim]
  · intro h8 htrim
    constructor
    · intro hall
      have hnone : ((goSplit text ',').map
          (fun sub => parse elem (zeroVal elem) sub false)).find?
            (fun r => !(r.2 == .ok)) = none := by
        rw [List.find?_eq_none]
        intro x hx
        simp [hall x hx]
      simp [valueParse, parse, textDecOf, binDecOf, h8, htrim, hnone]
    · intro bad hfind
      simp [valueParse, parse, textDecOf, binDecOf, h8, htrim, hfind]

/-- C6 witness: blank text into an integer sequence, and a failing
second item of `"1,x"` leaving the previous contents in place. -/
theorem c6_sequence_witness :
    (valueParse (.slice (.signed 64 false)) (.list [.int 9]) " " = (.list [], .ok))
    ∧ (valueParse (.slice (.signed 64 false)) (.list [.int 9]) "1,x"
      = (.list [.int 9], .err "strconv.ParseInt: parsing \"x\": invalid syntax")) :=
  ⟨(c6_sequence (.signed 64 false) (.list [.int 9]) " ").2.1 rfl rfl,
   ((c6_sequence (.signed 64 false) (.list [.int 9]) "1,x").2.2.2 rfl (by decide)).2
     (.int 0, .err "strconv.ParseInt: parsing \"x\": invalid syntax") rfl⟩

/-! ## Claim C7 — top-level map conversion of non-blank text -/

/-- C7: each comma-separated entry is cut at the first `'='`; an entry
with no `'='` is skipped silently; a key failure wraps its cause as
`failed to parse key: <raw-key>: <cause>` and a value failure as
`failed to parse value at key: <raw-key>: <cause>`, failing the whole
field with the destination unchanged; parsed entries accumulate with a
later duplicate key shadowing the earlier binding. -/
theorem c7_map (dst : Val) :
    (∀ (pk pv : String → Val × POut) (m : List (Val × Val)) (e : String),
        goCut e '=' = none → mapStep pk pv (.inl m) e = .inl m)
    ∧ (∀ (pk pv : String → Val × POut) m e key value kv c,
        goCut e '=' = some (key, value) → pk key = (kv, .err c) →
        mapStep pk pv (.inl m) e
          = .inr (.err ("failed to parse key: " ++ key ++ ": " ++ c)))
    ∧ (∀ (pk pv : String → Val × POut) m e key value kv vv c,
        goCut e '=' = some (key, value) → pk key = (kv, .ok) → pv value = (vv, .err c) →
        mapStep pk pv (.inl m) e
          = .inr (.err ("failed to parse value at key: " ++ key ++ ": " ++ c)))
    ∧ (∀ (pk pv : String → Val × POut) m e key value kv vv,
        goCut e '=' = some (key, value) → pk key = (kv, .ok) → pv value = (vv, .ok) →
        mapStep pk pv (.inl m) e = .inl (mapSet m kv vv))
    ∧ (valueParse (.mapTy .boolean (.signed 64 false)) dst "3=4"
        = (dst, .err "failed to parse key: 3: strconv.ParseBool: parsing \"3\": invalid syntax"))
    ∧ (valueParse (.mapTy (.signed 64 false) .boolean) dst "3=4"
        = (dst, .err "failed to parse value at key: 3: strconv.ParseBool: parsing \"4\": invalid syntax"))
    ∧ (valueParse (.mapTy .str (.signed 64 false)) dst "x=1,x=2"
        = (.mapv [(.str "x", .int 1), (.str "x", .int 2)], .ok))
    ∧ (mapGetStr [(.str "x", .int 1), (.str "x", .int 2)] "x" = some (.int 2)) := by
  refine ⟨?_, ?_, ?_, ?_, rfl, rfl, rfl, rfl⟩
  · intro pk pv m e h
    simp [mapStep, h]
  · intro pk pv m e key value kv c h hk
    simp [mapStep, h, hk]
  · intro pk pv m e key value kv vv c h hk hv
    simp [mapStep, h, hk, hv]
  · intro pk pv m e key value kv vv h hk hv
    simp [mapStep, h, hk, hv]

/-- C7 witness: the `mapStep` branches at concrete inputs — `"a"` is
skipped, the key of `"3=4"` fails under a boolean key parser, its value
fails under a boolean value parser, and `"x=2"` inserts a binding. -/
theorem c7_map_witness :
    (mapStep (fun s => parse .str (.str "") s false) (fun s => parse .str (.str "") s false)
        (.inl []) "a" = .inl [])
    ∧ (mapStep (fun s => parse .boolean (.bool false) s false)
        (fun s => parse (.signed 64 false) (.int 0) s false) (.inl []) "3=4"
      = .inr (.err "failed to parse key: 3: strconv.ParseBool: parsing \"3\": invalid syntax"))
    ∧ (mapStep (fun s => parse (.signed 64 false) (.int 0) s false)
        (fun s => parse .boolean (.bool false) s false) (.inl []) "3=4"
      = .inr (.err "failed to parse value at key: 3: strconv.ParseBool: parsing \"4\": invalid syntax"))
    ∧ (mapStep (fun s => parse .str (.str "") s false) (fun s => parse .str (.str "") s false)
        (.inl [(.str "x", .str "1")]) "x=2"
      = .inl (mapSet [(.str "x", .str "1")] (.str "x") (.str "2"))) :=
  ⟨(c7_map (.str "")).1 _ _ [] "a" rfl,
   (c7_map (.str "")).2.1 _ _ [] "3=4" "3" "4" (.bool false)
     "strconv.ParseBool: parsing \"3\": invalid syntax" rfl rfl,
   (c7_map (.str "")).2.2.1 _ _ [] "3=4" "3" "4" (.int 3) (.bool false)
     "strconv.ParseBool: parsing \"4\": invalid syntax" rfl rfl rfl,
   (c7_map (.str "")).2.2.2.1 _ _ [(.str "x", .str "1")] "x=2" "x" "2"
     (.str "x") (.str "2") rfl rfl rfl⟩

/-! ## Claim C8 — bounded nesting: composite dispatch only at top level -/

theorem splitChars_ne_nil (sep : Char) : ∀ cs : List Char, splitChars sep cs ≠ []
  | [] => by simp [splitChars]
  | c :: rest => by
    simp only [splitChars]
    split
    · simp
    · split <;> simp

/-- C8: the conversion procedure is a total function (it is defined by
structural recursion on the destination type, so it terminates on every
input), and composite dispatch is only permitted at top level: a nested
conversion reaching a sequence or map type fails immediately with the
unsupported-nesting error instead of recursing, so a top-level sequence
of sequences (or of maps) with non-blank text fails the same way. -/
theorem c8_nesting (elem kt vt : Ty) (v : Val) (text : String) :
    (parse (.slice elem) v text false = (v, .err "cannot support deep slices"))
    ∧ (parse (.mapTy kt vt) v text false = (v, .err "cannot support deep maps"))
    ∧ (goTrimSpace text ≠ "" →
        valueParse (.slice (.slice elem)) v text = (v, .err "cannot support deep slices"))
    ∧ (goTrimSpace text ≠ "" →
        valueParse (.slice (.mapTy kt vt)) v text = (v, .err "cannot support deep maps")) := by
  refine ⟨rfl, rfl, ?_, ?_⟩
  · intro htrim
    obtain ⟨i, is, hitems⟩ : ∃ i is, goSplit text ',' = i :: is := by
      rcases h : goSplit text ',' with _ | ⟨i, is⟩
      · exact absurd (List.map_eq_nil_iff.mp h) (splitChars_ne_nil ',' text.data)
      · exact ⟨i, is, rfl⟩
    simp [valueParse, parse, textDecOf, binDecOf, htrim, hitems, isU8Kind, zeroVal]
  · intro htrim
    obtain ⟨i, is, hitems⟩ : ∃ i is, goSplit text ',' = i :: is := by
      rcases h : goSplit text ',' with _ | ⟨i, is⟩
      · exact absurd (List.map_eq_nil_iff.mp h) (splitChars_ne_nil ',' text.data)
      · exact ⟨i, is, rfl⟩
    simp [valueParse, parse, textDecOf, binDecOf, htrim, hitems, isU8Kind, zeroVal]

/-- C8 witness: `[][]string` from `"a,b"` and `[]map[string]string`
from `"a"` both fail with the nesting errors. -/
theorem c8_nesting_witness :
    (valueParse (.slice (.slice .str)) (.list []) "a,b"
      = (.list [], .err "cannot support deep slices"))
    ∧ (valueParse (.slice (.mapTy .str .str)) (.list []) "a"
      = (.list [], .err "cannot support deep maps")) :=
  ⟨(c8_nesting .str .str .str (.list []) "a,b").2.2.1 (by decide),
   (c8_nesting .str .str .str (.list []) "a").2.2.2 (by decide)⟩

/-! ## Claim C9 — custom decode capabilities short-circuit dispatch -/

/-- C9: during pointer indirection over a named type, a text-decode
capability (`encoding.TextUnmarshaler`) is invoked with the raw text and
its result returned directly — whatever the underlying type `base` is,
including sequence and map types, and whatever binary capability is also
available (so the text capability takes precedence); with no text
capability the binary one (`encoding.BinaryUnmarshaler`) is invoked the
same way.  A nil pointer has a zero pointee allocated first; a failing
decode keeps it. -/
theorem c9_decoder (base : Ty) (p : Option Val) (text : String) (top : Bool) :
    (∀ (td : String → DecRes) (bd : Option (String → DecRes)),
      parse (.ptr (.custom base (some td) bd)) (.ptr p) text top
        = match td text with
          | .ok w => (.ptr (some w), .ok)
          | .err m => (.ptr (some (p.getD (zeroVal base))), .err m)
          | .fault m => (.ptr (some (p.getD (zeroVal base))), .fault m))
    ∧ (∀ bd : String → DecRes,
      parse (.ptr (.custom base none (some bd))) (.ptr p) text top
        = match bd text with
          | .ok w => (.ptr (some w), .ok)
          | .err m => (.ptr (some (p.getD (zeroVal base))), .err m)
          | .fault m => (.ptr (some (p.getD (zeroVal base))), .fault m)) := by
  constructor
  · intro td bd
    cases p <;> cases h : td text <;> simp [parse, textDecOf, zeroVal, h]
  · intro bd
    cases p <;> cases h : bd text <;> simp [parse, textDecOf, binDecOf, zeroVal, h]

/-! ## Claim C10 — `MakeParser`: nil filtering and first-found composition -/

/-- The specification's reading of the composed lookup, written from the
spec's words for comparison with `joinLookupFuncs`: the text of the
first source, in supplied order, that reports found. -/
def firstFound : List Lk → String → Option String
  | [], _ => none
  | fn :: rest, key =>
    match fn key with
    | .ret t true => some t
    | _ => firstFound rest key

theorem joinGo_spec : ∀ (fns : List Lk) (key : String) (s : String),
    (∀ fn ∈ fns, ∀ m, fn key ≠ .fault m) →
    (∀ t, firstFound fns key = some t → joinGo fns key (.ret s false) = .ret t true)
    ∧ (firstFound fns key = none → ∃ u, joinGo fns key (.ret s false) = .ret u false)
  | [], key, s, _ => ⟨fun t h => (nomatch h), fun _ => ⟨s, rfl⟩⟩
  | fn :: rest, key, s, hnf => by
    have hfn := hnf fn (List.mem_cons_self fn rest)
    cases hr : fn key with
    | fault m => exact absurd hr (hfn m)
    | ret v ok =>
      cases ok with
      | false =>
        have ih := joinGo_spec rest key v (fun g hg => hnf g (List.mem_cons_of_mem fn hg))
        constructor
        · intro t ht
          simp only [firstFound, hr] at ht
          simp only [joinGo, hr]
          exact ih.1 t ht
        · intro ht
          simp only [firstFound, hr] at ht
          simp only [joinGo, hr]
          exact ih.2 ht
      | true =>
        constructor
        · intro t ht
          simp only [firstFound, hr, Option.some.injEq] at ht
          simp only [joinGo, hr, ht]
        · intro ht
          simp only [firstFound, hr] at ht
          exact Option.noConfusion ht
  termination_by fns => fns.length

/-- C10: `MakeParser` discards nil sources before composing — inserting
a nil anywhere changes nothing; with zero non-nil sources the parser's
lookup is the process-environment lookup; otherwise it is the
`joinLookupFuncs` composition of the non-nil sources, which (absent
panics) returns the first found result, and reports not-found exactly
when no source finds the key. -/
theorem c10_makeParser :
    (∀ (env : Lk) (l1 l2 : List (Option Lk)) (key : String),
      makeParserLookup env (l1 ++ none :: l2) key = makeParserLookup env (l1 ++ l2) key)
    ∧ (∀ (env : Lk) (l : List (Option Lk)) (key : String), l.filterMap id = [] →
        makeParserLookup env l key = env key)
    ∧ (∀ (env : Lk) (l : List (Option Lk)) (key : String), l.filterMap id ≠ [] →
        makeParserLookup env l key = joinLookupFuncs (l.filterMap id) key)
    ∧ (∀ (fns : List Lk) (key : String),
        (∀ fn ∈ fns, ∀ m, fn key ≠ .fault m) →
        (∀ t, firstFound fns key = some t → joinLookupFuncs fns key = .ret t true)
        ∧ (firstFound fns key = none → ∃ u, joinLookupFuncs fns key = .ret u false)) := by
  refine ⟨?_, ?_, ?_, ?_⟩
  · intro env l1 l2 key
    have h : List.filterMap id (l1 ++ none :: l2) = List.filterMap id (l1 ++ l2) := by
      simp [List.filterMap_append, List.filterMap_cons]
    simp only [makeParserLookup]
    rw [h]
  · intro env l key h
    simp [makeParserLookup, h]
  · intro env l key h
    simp [makeParserLookup, List.isEmpty_iff, h]
  · intro fns key h
    exact joinGo_spec fns key "" h

/-- C10 witness: a nil between two sources is ignored; two nils fall
back to the environment; the first source that finds `"MAX"` wins; a
key no source finds reports not-found. -/
theorem c10_makeParser_witness :
    (makeParserLookup (fun _ => .ret "env" true)
        [some (fun _ => .ret "one" true), none, some (fun _ => .ret "two" true)] "k"
      = makeParserLookup (fun _ => .ret "env" true)
        [some (fun _ => .ret "one" true), some (fun _ => .ret "two" true)] "k")
    ∧ (makeParserLookup (fun _ => .ret "env" true) [none, none] "k" = .ret "env" true)
    ∧ (joinLookupFuncs
        [fun n => if n = "MAX" then .ret "42" true else .ret "zz" false,
         fun n => if n = "MAX" then .ret "10" true else .ret "" false] "MAX"
      = .ret "42" true)
    ∧ (∃ u, joinLookupFuncs
        [fun n => if n = "MAX" then .ret "42" true else .ret "zz" false] "OTHER"
      = .ret u false) :=
  ⟨c10_makeParser.1 (fun _ => .ret "env" true)
      [some (fun _ => .ret "one" true)] [some (fun _ => .ret "two" true)] "k",
   c10_makeParser.2.1 (fun _ => .ret "env" true) [none, none] "k" rfl,
   (c10_makeParser.2.2.2
      [fun n => if n = "MAX" then .ret "42" true else .ret "zz" false,
       fun n => if n = "MAX" then .ret "10" true else .ret "" false] "MAX"
      (by
        intro fn hfn m
        simp only [List.mem_cons, List.not_mem_nil, or_false] at hfn
        rcases hfn with rfl | rfl
        · simp
        · simp)).1 "42" rfl,
   (c10_makeParser.2.2.2
      [fun n => if n = "MAX" then .ret "42" true else .ret "zz" false] "OTHER"
      (by
        intro fn hfn m
        simp only [List.mem_singleton] at hfn
        subst hfn
        simp)).2 rfl⟩
